import Mathlib

/-!
Verification of the arithmetic-expression evaluator and the bounded random
generator of the mcp-calculator-server repository.

The authoritative core is the string-based evaluator of `server.go`
(functions `evaluateExpression`, `parseExpression`, `parseAddSubWithRemaining`,
`parseMulDiv`, `parseUnary`, `parseFactor`, `parseNumber`, `removeSpaces`),
the distribution generators (`generateUniform`, `generateNormal`,
`generateExponential`) of the same file, the post-evaluation NaN check of
`handleCalculate`, and the arithmetic dispatch of
`internal/tools/calculator.go` (`CalculatorHandler`).

Modelling conventions:
* `float64` values are embedded as `ℚ`.  Every concrete value appearing in
  the verified properties (small integers, `1e2`, `1.5e-1`, ...) is exactly
  representable in binary64, and the operations performed on them by the
  source are exact, so the rational semantics agrees with the source on all
  inputs used in the theorems.
* The Go string loops index with an integer cursor; here the remaining input
  is a `List Char` suffix.  Loops that are `for` loops in Go are embedded as
  structural recursion over an explicit fuel counter that is always supplied
  large enough (one unit of fuel per consumed character), so the fuel branch
  is unreachable on every input.
* `crypto/rand.Int(rand.Reader, maxInt)` yields some integer `k` with
  `0 ≤ k < maxInt`; the draw is passed to `generateUniform` as an explicit
  argument `k` and theorems quantify over all draws in that interval.
* The Box–Muller value `z0 = sqrt(-2 ln u1) * cos(2 pi u2)` and the
  exponential transform value `-ln(1-u)` are transcendental reals; they are
  passed as explicit arguments (`z0`, arbitrary; `negLogOneMinusU`,
  non-negative).  The side lemmas `neg_log_one_sub_nonneg` and
  `generateUniform_unit_interval` discharge, over `ℝ`, the facts assumed
  about those arguments.
-/

/-- Digit accumulator used by the number parser: value of a digit string. -/
def digitsToNat (l : List Char) : ℕ :=
  l.foldl (fun n c => 10 * n + (c.toNat - '0'.toNat)) 0

/-- Model of Go `strconv.ParseFloat(s, 64)` restricted to the decimal float
syntax `[sign] digits [. digits] [(e|E) [sign] digits]` (at least one mantissa
digit, exponent digits required when an exponent marker is present, nothing
left over).  The value is computed exactly in `ℚ`. -/
def parseFloatQ (l : List Char) : Option ℚ :=
  let sgnRest : ℚ × List Char :=
    match l with
    | '+' :: t => (1, t)
    | '-' :: t => (-1, t)
    | _ => (1, l)
  let sgn := sgnRest.1
  let l1 := sgnRest.2
  let ip := l1.takeWhile Char.isDigit
  let l2 := l1.dropWhile Char.isDigit
  let fpRest : List Char × List Char :=
    match l2 with
    | '.' :: t => (t.takeWhile Char.isDigit, t.dropWhile Char.isDigit)
    | _ => ([], l2)
  let fp := fpRest.1
  let l3 := fpRest.2
  if ip.isEmpty && fp.isEmpty then none
  else
    let mant : ℚ := (digitsToNat ip : ℚ) + (digitsToNat fp : ℚ) / (10 : ℚ) ^ fp.length
    match l3 with
    | [] => some (sgn * mant)
    | e :: t =>
      if e = 'e' ∨ e = 'E' then
        let esgnRest : Bool × List Char :=
          match t with
          | '+' :: t2 => (false, t2)
          | '-' :: t2 => (true, t2)
          | _ => (false, t)
        let esgn := esgnRest.1
        let t1 := esgnRest.2
        let eds := t1.takeWhile Char.isDigit
        let t2 := t1.dropWhile Char.isDigit
        if eds.isEmpty ∨ t2 ≠ [] then none
        else
          let p : ℚ := (10 : ℚ) ^ digitsToNat eds
          some (if esgn then sgn * mant / p else sgn * mant * p)
      else none

/-- The scanning loop of Go `parseNumber` (server.go): consume digits and
dots; on `e`/`E` consume the marker, an optional sign and following digits,
then resume the outer loop.  Returns the consumed prefix and the rest.
`fuel` bounds the number of outer-loop iterations; each iteration consumes at
least one character, so `fuel = length` never runs out. -/
def scanNumber : ℕ → List Char → List Char × List Char
  | 0, l => ([], l)
  | _, [] => ([], [])
  | fuel + 1, c :: t =>
    if c.isDigit ∨ c = '.' then
      let r := scanNumber fuel t
      (c :: r.1, r.2)
    else if c = 'e' ∨ c = 'E' then
      match t with
      | s :: t2 =>
        if s = '+' ∨ s = '-' then
          let ds := t2.takeWhile Char.isDigit
          let rest := t2.dropWhile Char.isDigit
          let r := scanNumber fuel rest
          (c :: s :: (ds ++ r.1), r.2)
        else
          let ds := t.takeWhile Char.isDigit
          let rest := t.dropWhile Char.isDigit
          let r := scanNumber fuel rest
          (c :: (ds ++ r.1), r.2)
      | [] => ([c], [])
    else ([], c :: t)

/-- Go `parseNumber` (server.go): scan a numeric literal from the front of
the expression, then parse it with `strconv.ParseFloat`. -/
def parseNumber (l : List Char) : Except String (ℚ × List Char) :=
  match l with
  | [] => .error "unexpected end of expression"
  | c :: _ =>
    let r := scanNumber l.length l
    if r.1.isEmpty then
      .error ("expected number but found \x27" ++ c.toString ++ "\x27")
    else
      match parseFloatQ r.1 with
      | some v => .ok (v, r.2)
      | none => .error ("invalid number format: " ++ String.mk r.1)

/-- The matching-parenthesis scan of Go `parseFactor` (server.go): starting
just after an opening parenthesis, return the content up to the matching
closing parenthesis and the input after it, or `none` when the closing
parenthesis is missing. -/
def findCloseAux : List Char → ℕ → Option (List Char × List Char)
  | [], _ => none
  | c :: t, d =>
    if c = ')' then
      if d = 0 then some ([], t)
      else
        match findCloseAux t (d - 1) with
        | some r => some (c :: r.1, r.2)
        | none => none
    else if c = '(' then
      match findCloseAux t (d + 1) with
      | some r => some (c :: r.1, r.2)
      | none => none
    else
      match findCloseAux t d with
      | some r => some (c :: r.1, r.2)
      | none => none

/-- Go `parseFactor` (server.go): parenthesised sub-expression (evaluated by
the `inner` full-expression parser, i.e. `parseExpression`) or a number. -/
def parseFactor (inner : List Char → Except String ℚ) :
    List Char → Except String (ℚ × List Char)
  | [] => .error "unexpected end of expression"
  | c :: t =>
    if c = '(' then
      match findCloseAux t 0 with
      | none => .error "mismatched parentheses: missing closing parenthesis"
      | some r =>
        if r.1.isEmpty then .error "empty parentheses are not allowed"
        else
          match inner r.1 with
          | .error e => .error e
          | .ok v => .ok (v, r.2)
    else parseNumber (c :: t)

/-- Go `parseUnary` (server.go): strip leading `+`, negate after a leading
`-`, recursively; otherwise fall through to `parseFactor`. -/
def parseUnary (inner : List Char → Except String ℚ) :
    List Char → Except String (ℚ × List Char)
  | [] => .error "unexpected end of expression"
  | c :: t =>
    if c = '+' then parseUnary inner t
    else if c = '-' then
      match parseUnary inner t with
      | .ok r => .ok (-r.1, r.2)
      | .error e => .error e
    else parseFactor inner (c :: t)

/-- The `*`/`/` accumulation loop of Go `parseMulDiv` (server.go).  `acc` is
the running left operand; division by an operand equal to exactly `0` is
rejected.  One unit of fuel per loop iteration. -/
def parseMulDivLoop (inner : List Char → Except String ℚ) :
    ℕ → ℚ → List Char → Except String (ℚ × List Char)
  | _, acc, [] => .ok (acc, [])
  | fuel, acc, c :: t =>
    if c = '*' ∨ c = '/' then
      match fuel with
      | 0 => .error "fuel exhausted"
      | fuel' + 1 =>
        match t with
        | [] => .error ("operator \x27" ++ c.toString ++ "\x27 at end of expression")
        | _ =>
          match parseUnary inner t with
          | .error e => .error e
          | .ok r =>
            if c = '*' then parseMulDivLoop inner fuel' (acc * r.1) r.2
            else if r.1 = 0 then .error "division by zero is not allowed"
            else parseMulDivLoop inner fuel' (acc / r.1) r.2
    else .ok (acc, c :: t)

/-- Go `parseMulDiv` (server.go): parse a unary factor then fold the
multiplication/division loop over the remaining input. -/
def parseMulDiv (inner : List Char → Except String ℚ) (l : List Char) :
    Except String (ℚ × List Char) :=
  match parseUnary inner l with
  | .error e => .error e
  | .ok r => parseMulDivLoop inner r.2.length r.1 r.2

/-- The `+`/`-` accumulation loop of Go `parseAddSubWithRemaining`
(server.go). -/
def parseAddSubLoop (inner : List Char → Except String ℚ) :
    ℕ → ℚ → List Char → Except String (ℚ × List Char)
  | _, acc, [] => .ok (acc, [])
  | fuel, acc, c :: t =>
    if c = '+' ∨ c = '-' then
      match fuel with
      | 0 => .error "fuel exhausted"
      | fuel' + 1 =>
        match t with
        | [] => .error ("operator \x27" ++ c.toString ++ "\x27 at end of expression")
        | _ =>
          match parseMulDiv inner t with
          | .error e => .error e
          | .ok r =>
            parseAddSubLoop inner fuel' (if c = '+' then acc + r.1 else acc - r.1) r.2
    else .ok (acc, c :: t)

/-- Go `parseAddSubWithRemaining` (server.go): parse a `*`/`/` chain then
fold the addition/subtraction loop over the remaining input. -/
def parseAddSubWithRemaining (inner : List Char → Except String ℚ)
    (l : List Char) : Except String (ℚ × List Char) :=
  match parseMulDiv inner l with
  | .error e => .error e
  | .ok r => parseAddSubLoop inner r.2.length r.1 r.2

/-- Go `parseExpression` (server.go): parse an additive chain and reject any
leftover characters, reporting the first one and its position. -/
def parseExpressionStep (inner : List Char → Except String ℚ)
    (l : List Char) : Except String ℚ :=
  match parseAddSubWithRemaining inner l with
  | .error e => .error e
  | .ok r =>
    match r.2 with
    | [] => .ok r.1
    | c :: t =>
      .error ("unexpected character \x27" ++ c.toString ++ "\x27 at position "
        ++ toString (l.length - (t.length + 1)))

/-- `parseExpression` with the recursive knot tied through parenthesis
nesting depth: level `fuel + 1` parses parenthesised sub-expressions with
level `fuel`.  Nesting depth is bounded by the input length, so
`fuel = length + 1` never exhausts. -/
def parseExpression : ℕ → List Char → Except String ℚ
  | 0, _ => .error "fuel exhausted"
  | fuel + 1, l => parseExpressionStep (parseExpression fuel) l

/-- Go `removeSpaces` (server.go): `strings.ReplaceAll(s, " ", "")`, i.e.
delete every ASCII space character. -/
def removeSpaces : List Char → List Char
  | [] => []
  | c :: t => if c = ' ' then removeSpaces t else c :: removeSpaces t

/-- Go `evaluateExpression` (server.go, string-based evaluator): delete
spaces, reject the empty expression, parse. -/
def evaluateExpression (s : String) : Except String ℚ :=
  let l := removeSpaces s.toList
  if l.isEmpty then .error "empty expression"
  else parseExpression (l.length + 1) l

/-- Go conversion `int64(q)` for a non-negative-or-negative float value:
truncation toward zero. -/
def truncQ (q : ℚ) : ℤ :=
  if 0 ≤ q then ⌊q⌋ else -⌊-q⌋

/-- The bound `maxInt` computed by Go `generateUniform` (server.go):
`maxInt := int64(diff * float64(10000)); if maxInt <= 0 { maxInt = 1 }`.
`crypto/rand.Int(rand.Reader, big.NewInt(maxInt))` then draws an integer `k`
with `0 ≤ k < maxInt`. -/
def uniformMaxInt (min max : ℚ) : ℤ :=
  let m := truncQ ((max - min) * 10000)
  if m ≤ 0 then 1 else m

/-- Go `generateUniform` (server.go) as a function of the entropy draw `k`
(the value returned by `crypto/rand.Int`, `0 ≤ k < uniformMaxInt min max`):
`min + float64(k) / float64(10000)`. -/
def generateUniform (min max : ℚ) (k : ℤ) : ℚ :=
  min + (k : ℚ) / 10000

/-- Go `generateNormal` (server.go) as a function of the Box–Muller value
`z0 = sqrt(-2 ln u1) * cos(2 pi u2)`, which is passed in as an arbitrary
argument (the theorems hold for every real value of `z0`): compute
`mean + z0 * stdDev`, then clamp below to `min` and above to `max`. -/
def generateNormal (min max z0 : ℚ) : ℚ :=
  let mean := (min + max) / 2
  let stdDev := (max - min) / 6
  let result := mean + z0 * stdDev
  let result1 := if result < min then min else result
  if max < result1 then max else result1

/-- Go `generateExponential` (server.go) as a function of the transform
value `negLogOneMinusU = -ln(1-u)` where `u = generateUniform 0 1 k`; the
lemma `neg_log_one_sub_nonneg` shows `0 ≤ negLogOneMinusU` for every
`u ∈ [0,1)`.  Compute `lambda = 3/(max-min)`, then
`min + negLogOneMinusU / lambda`, clamping only the upper side to `max`. -/
def generateExponential (min max negLogOneMinusU : ℚ) : ℚ :=
  let lambda := 3 / (max - min)
  let result := min + negLogOneMinusU / lambda
  if max < result then max else result

/-- The arithmetic dispatch of `CalculatorHandler`
(internal/tools/calculator.go, lines 116-155), after both operands have been
extracted: `add`, `subtract`, `multiply`, `divide` with an exact `b == 0`
guard, and an unsupported-operation error otherwise.  The returned string is
the `Text` of the error response. -/
def CalculatorHandler (operation : String) (a b : ℚ) : Except String ℚ :=
  if operation = "add" then .ok (a + b)
  else if operation = "subtract" then .ok (a - b)
  else if operation = "multiply" then .ok (a * b)
  else if operation = "divide" then
    if b = 0 then .error "Error: division by zero is not allowed"
    else .ok (a / b)
  else
    .error ("Error: unsupported operation \x27" ++ operation
      ++ "\x27. Supported operations: add, subtract, multiply, divide")

/-- A `float64` evaluation result as seen by `handleCalculate` (server.go):
either an ordinary finite value, an infinity, or NaN.  Only the NaN flag is
inspected by the handler. -/
inductive F64 where
  | num : ℚ → F64
  | posInf : F64
  | negInf : F64
  | nan : F64
deriving DecidableEq

/-- Go `math.IsNaN`. -/
def F64.isNaN : F64 → Bool
  | .nan => true
  | _ => false

/-- The post-evaluation stage of Go `handleCalculate` (server.go, lines
574-600): an evaluation error is wrapped as `Calculation error: ...`; a
successful result is checked with `math.IsNaN` and rejected before
formatting; only a non-NaN value is passed on to `formatResult`.  The `ok`
payload of the returned value is exactly the value handed to the
formatter. -/
def handleCalculateCheck (r : Except String F64) : Except String F64 :=
  match r with
  | .error e => .error ("Calculation error: " ++ e)
  | .ok v =>
    if v.isNaN then .error "Calculation resulted in an invalid number (NaN)"
    else .ok v

instance {ε α : Type} [DecidableEq ε] [DecidableEq α] : DecidableEq (Except ε α)
  | .ok a, .ok b =>
    match decEq a b with
    | isTrue h => isTrue (by rw [h])
    | isFalse h => isFalse (fun hh => h (Except.ok.inj hh))
  | .ok _, .error _ => isFalse (fun hh => Except.noConfusion hh)
  | .error _, .ok _ => isFalse (fun hh => Except.noConfusion hh)
  | .error a, .error b =>
    match decEq a b with
    | isTrue h => isTrue (by rw [h])
    | isFalse h => isFalse (fun hh => h (Except.error.inj hh))

/-- Determinism of the uniform sample on a given range: every admissible
entropy draw maps to the same sample, namely `min`. -/
def uniformForcedToMin (min max : ℚ) : Prop :=
  ∀ k : ℤ, 0 ≤ k → k < uniformMaxInt min max → generateUniform min max k = min

/-- Truncation toward zero is below its argument on non-negative inputs. -/
lemma truncQ_le_self (q : ℚ) (h : 0 ≤ q) : (truncQ q : ℚ) ≤ q := by
  simp only [truncQ, if_pos h]
  exact Int.floor_le q

/-- The exponential inverse transform is non-negative on `u ∈ [0,1)`:
`0 ≤ -ln(1-u)`.  This discharges, over `ℝ`, the hypothesis assumed about
the `negLogOneMinusU` argument of `generateExponential`. -/
lemma neg_log_one_sub_nonneg (u : ℝ) (h0 : 0 ≤ u) (h1 : u < 1) :
    0 ≤ -Real.log (1 - u) := by
  have h2 : Real.log (1 - u) ≤ 0 := Real.log_nonpos (by linarith) (by linarith)
  linarith

/-- The internal call `generateUniform(0, 1)` of the normal and exponential
generators yields a value in `[0, 1)` for every admissible draw. -/
lemma generateUniform_unit_interval (k : ℤ) (h0 : 0 ≤ k)
    (h1 : k < uniformMaxInt 0 1) :
    0 ≤ generateUniform 0 1 k ∧ generateUniform 0 1 k < 1 := by
  have hm : uniformMaxInt 0 1 = 10000 := by with_unfolding_all rfl
  rw [hm] at h1
  have hk0 : (0:ℚ) ≤ (k:ℚ) := by exact_mod_cast h0
  have hk1 : (k:ℚ) < 10000 := by exact_mod_cast h1
  constructor
  · simp only [generateUniform]
    positivity
  · simp only [generateUniform]
    rw [zero_add, div_lt_one (by norm_num : (0:ℚ) < 10000)]
    exact hk1

/-- C1: for every valid range `min < max` and all three distributions, every
successful sample lies in `[min, max]`: the uniform sample for every
admissible entropy draw `k`, the normal sample for every Box–Muller value
`z0` (clamped on both sides), and the exponential sample for every
non-negative transform value (clamped above, non-negative below). -/
theorem sample_within_range (min max : ℚ) (hlt : min < max) :
    (∀ k : ℤ, 0 ≤ k → k < uniformMaxInt min max →
      min ≤ generateUniform min max k ∧ generateUniform min max k ≤ max) ∧
    (∀ z0 : ℚ, min ≤ generateNormal min max z0 ∧ generateNormal min max z0 ≤ max) ∧
    (∀ t : ℚ, 0 ≤ t →
      min ≤ generateExponential min max t ∧ generateExponential min max t ≤ max) := by
  refine ⟨?_, ?_, ?_⟩
  · intro k hk0 hk1
    have hknn : (0:ℚ) ≤ (k:ℚ) := by exact_mod_cast hk0
    constructor
    · have hdiv : (0:ℚ) ≤ (k:ℚ) / 10000 := by positivity
      simp only [generateUniform]
      linarith
    · simp only [generateUniform]
      by_cases hm : truncQ ((max - min) * 10000) ≤ 0
      · have h1 : uniformMaxInt min max = 1 := by simp [uniformMaxInt, hm]
        rw [h1] at hk1
        have hk : k = 0 := by omega
        subst hk
        simp only [Int.cast_zero, zero_div, add_zero]
        linarith
      · have h1 : uniformMaxInt min max = truncQ ((max - min) * 10000) := by
          simp [uniformMaxInt, hm]
        rw [h1] at hk1
        have harg : (0:ℚ) ≤ (max - min) * 10000 := by nlinarith
        have h2 : (truncQ ((max - min) * 10000) : ℚ) ≤ (max - min) * 10000 :=
          truncQ_le_self _ harg
        have h3 : (k:ℚ) < (truncQ ((max - min) * 10000) : ℚ) := by exact_mod_cast hk1
        have h4 : (k:ℚ) / 10000 < max - min := by
          rw [div_lt_iff₀ (by norm_num : (0:ℚ) < 10000)]
          linarith
        linarith
  · intro z0
    simp only [generateNormal]
    constructor
    · split_ifs <;> linarith
    · split_ifs <;> linarith
  · intro t ht
    have hsub : (0:ℚ) < max - min := sub_pos.mpr hlt
    have hden : (0:ℚ) < 3 / (max - min) := by positivity
    have hq : 0 ≤ t / (3 / (max - min)) := div_nonneg ht (le_of_lt hden)
    simp only [generateExponential]
    constructor
    · split_ifs <;> linarith
    · split_ifs with h <;> linarith

/-- Concrete instantiation of `sample_within_range` at the range `[0, 1]`
with draw `k = 5`, Box–Muller value `42` and transform value `7`. -/
theorem sample_within_range_witness :
    ((0:ℚ) < 1) ∧ ((0:ℤ) ≤ 5) ∧ ((5:ℤ) < uniformMaxInt 0 1) ∧ ((0:ℚ) ≤ 7) ∧
    (0 ≤ generateUniform 0 1 5 ∧ generateUniform 0 1 5 ≤ 1) ∧
    (0 ≤ generateNormal 0 1 42 ∧ generateNormal 0 1 42 ≤ 1) ∧
    (0 ≤ generateExponential 0 1 7 ∧ generateExponential 0 1 7 ≤ 1) :=
  ⟨by with_unfolding_all decide, by decide, by with_unfolding_all decide,
   by with_unfolding_all decide,
   (sample_within_range 0 1 (by with_unfolding_all decide)).1 5 (by decide)
     (by with_unfolding_all decide),
   (sample_within_range 0 1 (by with_unfolding_all decide)).2.1 42,
   (sample_within_range 0 1 (by with_unfolding_all decide)).2.2 7
     (by with_unfolding_all decide)⟩

/-- C4 counterexample: a valid range narrower than the 1/10000 quantization
step.  `(min, max) = (0, 1/20000)` has `min < max`, yet the computed draw
bound is `1`, so the only admissible entropy draw is `k = 0` and the sample
is deterministically `min`: an external observer reproduces it exactly, for
all independent runs. -/
theorem uniform_degenerate_range_deterministic :
    (0:ℚ) < 1/20000 ∧ uniformMaxInt 0 (1/20000) = 1 ∧
    uniformForcedToMin 0 (1/20000) := by
  refine ⟨by with_unfolding_all decide, by with_unfolding_all decide, ?_⟩
  intro k h0 h1
  have hm : uniformMaxInt 0 (1/20000) = 1 := by with_unfolding_all decide
  rw [hm] at h1
  have hk : k = 0 := by omega
  subst hk
  with_unfolding_all rfl

/-- C4 (amended): the uniform sample is a function of the entropy draw, not
of `(min, max)` alone.  For every valid range whose quantized draw space has
at least two values, two admissible draws produce different samples, so two
independent runs may differ. -/
theorem uniform_sample_depends_on_draw (min max : ℚ) (hlt : min < max)
    (h2 : 2 ≤ uniformMaxInt min max) :
    ∃ k1 k2 : ℤ, 0 ≤ k1 ∧ k1 < uniformMaxInt min max ∧
      0 ≤ k2 ∧ k2 < uniformMaxInt min max ∧
      generateUniform min max k1 ≠ generateUniform min max k2 := by
  refine ⟨0, 1, le_refl 0, by omega, by norm_num, by omega, ?_⟩
  simp only [generateUniform]
  intro hcontra
  have : (0:ℚ) / 10000 = 1 / 10000 := by linarith
  norm_num at this

/-- Concrete instantiation of `uniform_sample_depends_on_draw` at the valid
range `[1, 100]`, whose draw space has `990000` values. -/
theorem uniform_sample_depends_on_draw_witness :
    (1:ℚ) < 100 ∧ (2:ℤ) ≤ uniformMaxInt 1 100 ∧
    (∃ k1 k2 : ℤ, 0 ≤ k1 ∧ k1 < uniformMaxInt 1 100 ∧
      0 ≤ k2 ∧ k2 < uniformMaxInt 1 100 ∧
      generateUniform 1 100 k1 ≠ generateUniform 1 100 k2) :=
  ⟨by with_unfolding_all decide, by with_unfolding_all decide,
   uniform_sample_depends_on_draw 1 100 (by with_unfolding_all decide)
     (by with_unfolding_all decide)⟩

/-- C9: a NaN result never reaches the formatter.  For every evaluation
outcome `r` (hence for the outcome of every input expression), if the
post-evaluation stage of `handleCalculate` forwards a value to the
formatter, that value is not NaN; and if the evaluated result is NaN, the
call fails with the invalid-number error instead of formatting. -/
theorem nan_blocked_before_format (r : Except String F64) :
    (∀ v : F64, handleCalculateCheck r = .ok v → v.isNaN = false) ∧
    (∀ v : F64, r = .ok v → v.isNaN = true →
      handleCalculateCheck r = .error "Calculation resulted in an invalid number (NaN)") := by
  constructor
  · intro v h
    cases r with
    | error e => simp [handleCalculateCheck] at h
    | ok w =>
      by_cases hw : w.isNaN
      · simp [handleCalculateCheck, hw] at h
      · simp [handleCalculateCheck, hw] at h
        rw [← h]
        simpa using hw
  · intro v h hnan
    subst h
    simp [handleCalculateCheck, hnan]

/-- Concrete instantiation of `nan_blocked_before_format`: a NaN evaluation
result is turned into the invalid-number error. -/
theorem nan_blocked_before_format_witness :
    handleCalculateCheck (Except.ok F64.nan) =
      .error "Calculation resulted in an invalid number (NaN)" :=
  (nan_blocked_before_format (Except.ok F64.nan)).2 F64.nan rfl rfl

/-- C3: division fails with the division-by-zero error exactly when the
evaluated divisor is exactly `0`, and then never returns a value.  Stated
for the `divide` branch of `CalculatorHandler` (for all operand pairs) and
for the division step of the expression evaluator `parseMulDiv` loop: a
right operand that evaluates to exactly `0` aborts with the error, and any
other right operand divides and continues. -/
theorem division_by_zero_exact :
    (∀ a b : ℚ,
      (CalculatorHandler "divide" a b = .error "Error: division by zero is not allowed" ↔
        b = 0) ∧
      (b = 0 → ∀ q : ℚ, CalculatorHandler "divide" a b ≠ .ok q)) ∧
    (∀ (inner : List Char → Except String ℚ) (fuel : ℕ) (acc : ℚ)
      (rest rem : List Char),
      parseUnary inner rest = .ok (0, rem) →
      parseMulDivLoop inner (fuel + 1) acc ('/' :: rest) =
        .error "division by zero is not allowed") ∧
    (∀ (inner : List Char → Except String ℚ) (fuel : ℕ) (acc rv : ℚ)
      (rest rem : List Char),
      parseUnary inner rest = .ok (rv, rem) → rv ≠ 0 →
      parseMulDivLoop inner (fuel + 1) acc ('/' :: rest) =
        parseMulDivLoop inner fuel (acc / rv) rem) := by
  refine ⟨?_, ?_, ?_⟩
  · intro a b
    constructor
    · constructor
      · intro h
        by_contra hb
        simp [CalculatorHandler, hb] at h
      · intro hb
        simp [CalculatorHandler, hb]
    · intro hb q
      simp [CalculatorHandler, hb]
  · intro inner fuel acc rest rem h
    cases rest with
    | nil => simp [parseUnary] at h
    | cons c t => simp [parseMulDivLoop, h]
  · intro inner fuel acc rv rest rem h hrv
    cases rest with
    | nil => simp [parseUnary] at h
    | cons c t => simp [parseMulDivLoop, h, hrv]

/-- Concrete instantiation of `division_by_zero_exact`: dividing `5` by `0`
in the calculator tool errors, and the expression-level division step on a
zero right operand errors. -/
theorem division_by_zero_exact_witness :
    CalculatorHandler "divide" 5 0 = .error "Error: division by zero is not allowed" ∧
    CalculatorHandler "divide" 5 0 ≠ .ok 1 ∧
    parseUnary (fun _ => .error "") ['0'] = .ok (0, []) ∧
    parseMulDivLoop (fun _ => .error "") 1 5 ('/' :: ['0']) =
      .error "division by zero is not allowed" :=
  ⟨(division_by_zero_exact.1 5 0).1.mpr rfl,
   (division_by_zero_exact.1 5 0).2 rfl 1,
   by with_unfolding_all rfl,
   division_by_zero_exact.2.1 (fun _ => .error "") 0 5 ['0'] []
     (by with_unfolding_all rfl)⟩

/-- C2: multiplication binds tighter than addition, and parentheses override
precedence. -/
theorem precedence_holds :
    evaluateExpression "2+3*4" = .ok 14 ∧ evaluateExpression "(2+3)*4" = .ok 20 :=
  ⟨by with_unfolding_all rfl, by with_unfolding_all rfl⟩

/-- C5: scientific-notation literals are parsed exactly. -/
theorem scientific_parse_holds :
    evaluateExpression "1e2" = .ok 100 ∧
    evaluateExpression "1.5e-1" = .ok (0.15 : ℚ) :=
  ⟨by with_unfolding_all rfl, by with_unfolding_all rfl⟩

/-- C6: each malformed input is rejected with an error, never a value:
empty parentheses, unmatched closing parenthesis, trailing operator,
division by zero, and an invalid character. -/
theorem malformed_inputs_rejected :
    evaluateExpression "()" = .error "empty parentheses are not allowed" ∧
    evaluateExpression "1+2)" = .error "unexpected character \x27)\x27 at position 3" ∧
    evaluateExpression "2+" = .error "operator \x27+\x27 at end of expression" ∧
    evaluateExpression "5/0" = .error "division by zero is not allowed" ∧
    evaluateExpression "2&3" = .error "unexpected character \x27&\x27 at position 1" :=
  ⟨by with_unfolding_all rfl, by with_unfolding_all rfl, by with_unfolding_all rfl,
   by with_unfolding_all rfl, by with_unfolding_all rfl⟩

/-- C7: runs of same-precedence operators accumulate left-to-right. -/
theorem left_assoc_holds :
    evaluateExpression "8-3-2" = .ok 3 ∧ evaluateExpression "8-3-2" ≠ .ok 7 ∧
    evaluateExpression "16/4/2" = .ok 2 := by
  refine ⟨by with_unfolding_all rfl, ?_, by with_unfolding_all rfl⟩
  intro h
  have h3 : evaluateExpression "8-3-2" = .ok 3 := by with_unfolding_all rfl
  rw [h3] at h
  exact absurd (Except.ok.inj h) (by norm_num)

/-- One step of the unary rule on a leading minus sign. -/
lemma parseUnary_minus_cons (inner : List Char → Except String ℚ) (l : List Char) :
    parseUnary inner ('-' :: l) =
      match parseUnary inner l with
      | .ok r => .ok (-r.1, r.2)
      | .error e => .error e := by
  rfl

/-- A chain of `n` leading minus signs in front of the literal `5` is
accepted by the unary rule and produces `(-1)^n * 5`. -/
lemma parseUnary_replicate_minus (inner : List Char → Except String ℚ) (n : ℕ) :
    parseUnary inner (List.replicate n '-' ++ ['5']) = .ok ((-1) ^ n * 5, []) := by
  induction n with
  | zero =>
    simp only [List.replicate_zero, List.nil_append]
    with_unfolding_all rfl
  | succ n ih =>
    rw [List.replicate_succ, List.cons_append, parseUnary_minus_cons, ih]
    have hval : -(((-1:ℚ)) ^ n * 5) = (-1) ^ (n + 1) * 5 := by ring
    simp [hval]

/-- `removeSpaces` keeps a chain of minus signs followed by `5` intact. -/
lemma removeSpaces_replicate_minus (n : ℕ) :
    removeSpaces (List.replicate n '-' ++ ['5']) = List.replicate n '-' ++ ['5'] := by
  induction n with
  | zero => rfl
  | succ n ih => simp [List.replicate_succ, removeSpaces, ih]

/-- C8: unary minus applies recursively: `--5` and `-(-5)` evaluate to `5`,
`-5+3` evaluates to `-2`, and arbitrarily many leading minus signs are
accepted, with `n` signs in front of `5` evaluating to `(-1)^n * 5`. -/
theorem unary_sign_chains :
    evaluateExpression "--5" = .ok 5 ∧ evaluateExpression "-(-5)" = .ok 5 ∧
    evaluateExpression "-5+3" = .ok (-2) ∧
    ∀ n : ℕ, evaluateExpression (String.mk (List.replicate n '-' ++ ['5'])) =
      .ok ((-1) ^ n * 5) := by
  refine ⟨by with_unfolding_all rfl, by with_unfolding_all rfl,
    by with_unfolding_all rfl, ?_⟩
  intro n
  have htl : (String.mk (List.replicate n '-' ++ ['5'])).toList =
      List.replicate n '-' ++ ['5'] := rfl
  have hne : (List.replicate n '-' ++ ['5']).isEmpty = false := by
    cases h : List.replicate n '-' ++ ['5'] with
    | nil => exact absurd h (by simp)
    | cons a t => rfl
  simp only [evaluateExpression, htl, removeSpaces_replicate_minus, hne,
    Bool.false_eq_true, if_false, parseExpression, parseExpressionStep,
    parseAddSubWithRemaining, parseMulDiv, parseUnary_replicate_minus,
    parseMulDivLoop, parseAddSubLoop]

/-- C10: every ASCII space character is deleted before parsing (no space
survives `removeSpaces`), so digit groups separated only by spaces merge
into one numeric literal: `1 2` evaluates to `12`, not an error. -/
theorem spaces_removed_before_parse :
    (∀ l : List Char, (removeSpaces l).count ' ' = 0) ∧
    evaluateExpression "1 2" = .ok 12 := by
  constructor
  · intro l
    induction l with
    | nil => rfl
    | cons c t ih =>
      by_cases hc : c = ' '
      · simp [removeSpaces, hc, ih]
      · simp [removeSpaces, hc, ih, List.count_cons]
  · with_unfolding_all rfl
